import Mathlib

/-!
Verification development for the spoticord session/player/audio-relay
subsystem.

The repository excerpt under `src/` contains only `src/main.rs` (process
bootstrap, environment checks and the background coordinator task); the
core modules (`session`, `player`, `audio`) are declared there
(`mod session; mod player; mod audio;`) but their code is not part of the
excerpt.  Definitions for those modules are therefore modelled from the
specification and carry a doc comment starting with `Modelled from the
spec:`.  The definitions `mainTrace` and `coordinatorLoop` are embedded
directly from `src/main.rs`.
-/

namespace Spoticord

/-- Modelled from the spec: the six Session states of the documented state
machine (spec section 3 "Data Model" and 4.4 "Session (state machine)").
The `session` module is not in the excerpt. -/
inductive SessState
  | Connecting
  | Playing
  | Paused
  | Reconnecting
  | Terminating
  | Terminated
  deriving DecidableEq, Repr

/-- Modelled from the spec: reported reason for a session ending
(spec 7 "Error handling": "escalates to session termination with a
reported reason"). -/
inductive Reason
  | ConnectionLost
  | Explicit
  | Fatal
  deriving DecidableEq, Repr

/-- Modelled from the spec: the events a Session reacts to — control
commands from the command layer, backend/transport health events, and the
internal teardown-completion signal (spec 4.4, 6, 7). -/
inductive Ev
  | joinOk
  | joinFail
  | cmdPause
  | cmdResume
  | cmdSkip
  | cmdSetVolume
  | connectionLost
  | rejoinOk
  | leave
  | fatalError
  | termComplete
  deriving DecidableEq, Repr

/-- Modelled from the spec: result returned to the caller of a control
call — `ok`, or `rejected` for `CommandRejected` (invalid transition,
returned to caller, no state change; spec 7). -/
inductive CmdResult
  | ok
  | rejected
  deriving DecidableEq, Repr

/-- Modelled from the spec: the per-guild Session record — guild key,
state-machine state, the explicit retry-budget counter (spec 9 "Design
notes": "explicit retry-budget counters attached to the Session"), and
the reported termination reason. -/
structure Session where
  guildId : Nat
  state : SessState
  retriesLeft : Nat
  reason : Option Reason
  deriving DecidableEq, Repr

/-- Modelled from the spec: the bounded reconnection budget ("Retry
budget: the bounded number of reconnection attempts allowed before a
failure is treated as fatal").  The spec leaves the constant open; the
scenario in spec 8 requires it to admit three failures, so 3 is used. -/
def retryBudget : Nat := 3

/-- Modelled from the spec: reaction to a `ConnectionLost` / transport
disconnect — decrement the retry budget and enter `Reconnecting`, or, if
the budget is exhausted, enter `Terminating` with reported reason
`ConnectionLost` (spec 4.4, 7, 9). -/
def Session.lostStep (s : Session) : Session × CmdResult :=
  if s.retriesLeft = 0 then
    ({ s with state := .Terminating, reason := some .ConnectionLost }, .ok)
  else
    ({ s with state := .Reconnecting, retriesLeft := s.retriesLeft - 1 }, .ok)

/-- Modelled from the spec: the Session state machine's single serialized
transition step (spec 4.4).  Any event whose transition is not documented
for the current state is answered with `CmdResult.rejected` and leaves the
Session unchanged (spec 7, `CommandRejected`). -/
def Session.handle (s : Session) (e : Ev) : Session × CmdResult :=
  match s.state, e with
  | .Connecting, .joinOk =>
      ({ s with state := .Playing, retriesLeft := retryBudget }, .ok)
  | .Connecting, .joinFail =>
      ({ s with state := .Terminated, reason := some .Fatal }, .ok)
  | .Playing, .cmdPause => ({ s with state := .Paused }, .ok)
  | .Paused, .cmdResume => ({ s with state := .Playing }, .ok)
  | .Playing, .cmdSkip => (s, .ok)
  | .Paused, .cmdSkip => (s, .ok)
  | .Playing, .cmdSetVolume => (s, .ok)
  | .Paused, .cmdSetVolume => (s, .ok)
  | .Playing, .connectionLost => s.lostStep
  | .Paused, .connectionLost => s.lostStep
  | .Reconnecting, .connectionLost => s.lostStep
  | .Reconnecting, .rejoinOk =>
      ({ s with state := .Playing, retriesLeft := retryBudget }, .ok)
  | .Connecting, .leave =>
      ({ s with state := .Terminating, reason := some .Explicit }, .ok)
  | .Playing, .leave =>
      ({ s with state := .Terminating, reason := some .Explicit }, .ok)
  | .Paused, .leave =>
      ({ s with state := .Terminating, reason := some .Explicit }, .ok)
  | .Reconnecting, .leave =>
      ({ s with state := .Terminating, reason := some .Explicit }, .ok)
  | .Connecting, .fatalError =>
      ({ s with state := .Terminating, reason := some .Fatal }, .ok)
  | .Playing, .fatalError =>
      ({ s with state := .Terminating, reason := some .Fatal }, .ok)
  | .Paused, .fatalError =>
      ({ s with state := .Terminating, reason := some .Fatal }, .ok)
  | .Reconnecting, .fatalError =>
      ({ s with state := .Terminating, reason := some .Fatal }, .ok)
  | .Terminating, .termComplete => ({ s with state := .Terminated }, .ok)
  | _, _ => (s, .rejected)

/-- Modelled from the spec: applying a sequence of events in receipt
order ("commands are applied in receipt order", spec 5). -/
def Session.run (s : Session) : List Ev → Session
  | [] => s
  | e :: es => ((s.handle e).1).run es

/-- The transition relation of the documented state machine, transcribed
from the bullet list in spec 4.4 ("States and transitions"), including
"any state → `Terminating`" for every non-terminated state. -/
def docTrans : SessState → SessState → Bool
  | .Connecting, .Playing => true
  | .Connecting, .Terminated => true
  | .Connecting, .Terminating => true
  | .Playing, .Paused => true
  | .Playing, .Reconnecting => true
  | .Playing, .Terminating => true
  | .Paused, .Playing => true
  | .Paused, .Reconnecting => true
  | .Paused, .Terminating => true
  | .Reconnecting, .Playing => true
  | .Reconnecting, .Terminating => true
  | .Terminating, .Terminated => true
  | _, _ => false

/-- Checks that every step taken while running an event sequence either
leaves the state unchanged (a rejected or stuttering command) or is a
transition of the documented state machine. -/
def Session.runFollowsDoc (s : Session) : List Ev → Bool
  | [] => true
  | e :: es =>
      let t := (s.handle e).1
      (decide (t.state = s.state) || docTrans s.state t.state) && t.runFollowsDoc es

/-- A convenient concrete session for instantiations. -/
def sess (st : SessState) : Session :=
  { guildId := 0, state := st, retriesLeft := retryBudget, reason := none }

theorem Session.handle_terminated (s : Session) (e : Ev)
    (h : s.state = .Terminated) : s.handle e = (s, .rejected) := by
  cases e <;> simp [Session.handle, h]

theorem Session.step_docTrans (s : Session) (e : Ev) :
    (s.handle e).1.state = s.state ∨ docTrans s.state (s.handle e).1.state = true := by
  obtain ⟨g, st, rl, rz⟩ := s
  cases st <;> cases e <;>
    simp [Session.handle, Session.lostStep, docTrans] <;>
    split <;> simp [docTrans]

theorem Session.runFollowsDoc_true (s : Session) (evs : List Ev) :
    s.runFollowsDoc evs = true := by
  induction evs generalizing s with
  | nil => rfl
  | cons e es ih =>
      have h := Session.step_docTrans s e
      simp only [Session.runFollowsDoc, Bool.and_eq_true, Bool.or_eq_true,
        decide_eq_true_eq]
      exact ⟨h, ih _⟩

theorem Session.run_terminated (s : Session) (evs : List Ev)
    (h : s.state = .Terminated) : (s.run evs).state = .Terminated := by
  induction evs generalizing s with
  | nil => exact h
  | cons e es ih =>
      simp only [Session.run, Session.handle_terminated s e h]
      exact ih s h

/-- C1: every step a Session takes while processing any event sequence is
either a stutter (state unchanged, e.g. a rejected command) or a
transition of the documented state machine, and a Session whose state is
`Terminated` never leaves `Terminated` under any event sequence. -/
theorem c1_session_follows_doc_machine (s : Session) (evs : List Ev) :
    s.runFollowsDoc evs = true ∧
      (s.state = .Terminated → (s.run evs).state = .Terminated) :=
  ⟨Session.runFollowsDoc_true s evs, fun h => Session.run_terminated s evs h⟩

/-- C1 witness: the checker accepts a concrete run, and a terminated
session stays terminated over a concrete event sequence. -/
theorem c1_witness :
    (sess .Connecting).runFollowsDoc [.joinOk, .cmdPause, .cmdResume, .leave, .termComplete] = true ∧
      ((sess .Terminated).run [.joinOk, .connectionLost, .leave]).state = .Terminated :=
  ⟨(c1_session_follows_doc_machine (sess .Connecting) _).1,
   (c1_session_follows_doc_machine (sess .Terminated) _).2 rfl⟩

/-- Modelled from the spec: `terminate()` on a Session — drives the
machine through `Terminating` to `Terminated` (explicit leave followed by
teardown completion) and guarantees on return that all background work
has stopped; calling it on an already-terminated Session produces no
error (spec 4.4 public contract, spec 8). -/
def Session.terminate (s : Session) : Session × CmdResult :=
  (s.run [.leave, .termComplete], .ok)

theorem Session.terminate_state (s : Session) :
    ((s.terminate).1).state = .Terminated := by
  obtain ⟨g, st, rl, rz⟩ := s
  cases st <;> rfl

theorem Session.terminate_of_terminated (s : Session)
    (h : s.state = .Terminated) : s.terminate = (s, .ok) := by
  simp [Session.terminate, Session.run, Session.handle_terminated s _ h]

/-- C5: `terminate()` is idempotent — it always returns without error, the
session it returns is in state `Terminated`, and a second call returns
immediately with that same session unchanged, observing `Terminated`. -/
theorem c5_terminate_idempotent (s : Session) :
    (s.terminate).2 = .ok ∧
      ((s.terminate).1).state = .Terminated ∧
      ((s.terminate).1).terminate = ((s.terminate).1, .ok) := by
  refine ⟨rfl, Session.terminate_state s, ?_⟩
  exact Session.terminate_of_terminated _ (Session.terminate_state s)

theorem Session.handle_rejected_unchanged (s : Session) (e : Ev)
    (h : (s.handle e).2 = .rejected) : (s.handle e).1 = s := by
  obtain ⟨g, st, rl, rz⟩ := s
  cases st <;> cases e <;>
    simp_all [Session.handle, Session.lostStep] <;>
    split at h <;> simp_all

/-- C7: a control command issued in a state where its transition is not
documented is answered with `CmdResult.rejected` and leaves the Session
completely unchanged; in particular Skip while `Connecting` is rejected. -/
theorem c7_rejected_command_no_state_change :
    (∀ (s : Session) (e : Ev), (s.handle e).2 = .rejected → (s.handle e).1 = s) ∧
      ((sess .Connecting).handle .cmdSkip).2 = .rejected :=
  ⟨Session.handle_rejected_unchanged, by decide⟩

/-- C7 witness: Skip while `Connecting` is rejected and the session is
returned unchanged. -/
theorem c7_witness :
    ((sess .Connecting).handle .cmdSkip).1 = sess .Connecting :=
  c7_rejected_command_no_state_change.1 (sess .Connecting) .cmdSkip (by decide)

/-- C8: reconnection follows the bounded retry budget — a
`ConnectionLost` in `Playing` or `Paused` with budget remaining moves the
Session to `Reconnecting`; a successful re-join returns it to `Playing`;
when the budget is exhausted a further `ConnectionLost` moves it to
`Terminating` with reported reason `ConnectionLost` and teardown ends in
`Terminated` with that reason.  Concretely, three `ConnectionLost`
events within the budget followed by a re-join traverse
`Playing → Reconnecting → Playing` without termination, while four end in
`Terminated` with reason `ConnectionLost`. -/
theorem c8_retry_budget (s : Session) :
    ((s.state = .Playing ∨ s.state = .Paused) → 0 < s.retriesLeft →
        ((s.handle .connectionLost).1).state = .Reconnecting) ∧
      (s.state = .Reconnecting →
        ((s.handle .rejoinOk).1).state = .Playing) ∧
      ((s.state = .Playing ∨ s.state = .Paused ∨ s.state = .Reconnecting) →
        s.retriesLeft = 0 →
        ((s.handle .connectionLost).1).state = .Terminating ∧
          ((s.handle .connectionLost).1).reason = some .ConnectionLost ∧
          ((((s.handle .connectionLost).1).handle .termComplete).1).state = .Terminated ∧
          ((((s.handle .connectionLost).1).handle .termComplete).1).reason
            = some .ConnectionLost) ∧
      ((sess .Playing).run
          [.connectionLost, .connectionLost, .connectionLost, .rejoinOk]).state
        = .Playing ∧
      (sess .Playing).runFollowsDoc
          [.connectionLost, .connectionLost, .connectionLost, .rejoinOk] = true ∧
      ((sess .Playing).run [.connectionLost, .connectionLost, .connectionLost,
          .connectionLost, .termComplete]).state = .Terminated ∧
      ((sess .Playing).run [.connectionLost, .connectionLost, .connectionLost,
          .connectionLost, .termComplete]).reason = some .ConnectionLost := by
  obtain ⟨g, st, rl, rz⟩ := s
  refine ⟨?_, ?_, ?_, by decide, by decide, by decide, by decide⟩
  · rintro (h | h) hrl <;>
      (simp only at h; subst h;
       simp [Session.handle, Session.lostStep, Nat.pos_iff_ne_zero.mp hrl])
  · intro h
    simp only at h
    subst h
    simp [Session.handle]
  · rintro (h | h | h) hrl <;>
      (simp only at h; subst h;
       have hrl0 : rl = 0 := hrl;
       simp [Session.handle, Session.lostStep, hrl0])

/-- C8 witness: instantiation at a `Playing` session with a positive
budget and at a `Reconnecting` session with an exhausted budget. -/
theorem c8_witness :
    (((sess .Playing).handle .connectionLost).1).state = .Reconnecting ∧
      ((({ sess .Reconnecting with retriesLeft := 0 }).handle
          .connectionLost).1).state = .Terminating :=
  ⟨(c8_retry_budget (sess .Playing)).1 (Or.inl rfl) (by decide),
   ((c8_retry_budget { sess .Reconnecting with retriesLeft := 0 }).2.2.1
      (Or.inr (Or.inr rfl)) rfl).1⟩

/-- Modelled from the spec: the Session Manager registry, a process-wide
mapping from guild id to Session; insertion and removal only through
Manager operations (spec 3, 4.5).  The `session::manager` module is not
in the excerpt. -/
abbrev Registry := List (Nat × Session)

/-- The guild keys currently registered. -/
def Registry.keys (m : Registry) : List Nat := m.map Prod.fst

/-- Modelled from the spec: registry lookup, `get(guild_id)`. -/
def Registry.find (m : Registry) (g : Nat) : Option Session :=
  match m with
  | [] => none
  | (g2, s) :: rest => if g2 = g then some s else Registry.find rest g

/-- Modelled from the spec: removal of every entry for a guild id. -/
def Registry.remove (m : Registry) (g : Nat) : Registry :=
  match m with
  | [] => []
  | (g2, s) :: rest =>
      if g2 = g then Registry.remove rest g
      else (g2, s) :: Registry.remove rest g

/-- Modelled from the spec: the fresh Session registered for a guild on a
join request; it starts in `Connecting` with a full retry budget. -/
def newSession (g : Nat) : Session :=
  { guildId := g, state := .Connecting, retriesLeft := retryBudget, reason := none }

/-- Modelled from the spec: `get_or_create(guild_id)` — returns the
Session already registered for the guild if there is one, otherwise
registers and returns a fresh one (spec 4.5, 8). -/
def Registry.getOrCreate (m : Registry) (g : Nat) : Session × Registry :=
  match Registry.find m g with
  | some s => (s, m)
  | none => (newSession g, (g, newSession g) :: m)

/-- Modelled from the spec: creating a second Session for a guild that
already has one first terminates the existing Session, removes it, and
registers a fresh one; returns the new registry together with the
terminated old Session, if any (spec 3 invariant). -/
def Registry.createReplacing (m : Registry) (g : Nat) : Registry × Option Session :=
  match Registry.find m g with
  | some old =>
      ((g, newSession g) :: Registry.remove m g, some (old.terminate).1)
  | none => ((g, newSession g) :: m, none)

theorem Registry.keys_cons (p : Nat × Session) (rest : Registry) :
    Registry.keys (p :: rest) = p.1 :: Registry.keys rest := rfl

theorem Registry.not_mem_keys_remove (m : Registry) (g : Nat) :
    g ∉ Registry.keys (Registry.remove m g) := by
  induction m with
  | nil => simp [Registry.remove, Registry.keys]
  | cons p rest ih =>
      obtain ⟨g2, s⟩ := p
      by_cases h : g2 = g
      · simpa [Registry.remove, h] using ih
      · simp only [Registry.remove, h, if_false, Registry.keys_cons]
        intro hmem
        rcases List.mem_cons.mp hmem with h1 | h1
        · exact h h1.symm
        · exact ih h1

theorem Registry.keys_remove_subset (m : Registry) (g x : Nat)
    (hx : x ∈ Registry.keys (Registry.remove m g)) : x ∈ Registry.keys m := by
  induction m with
  | nil => simpa [Registry.remove] using hx
  | cons p rest ih =>
      obtain ⟨g2, s⟩ := p
      rw [Registry.keys_cons]
      by_cases h : g2 = g
      · simp only [Registry.remove, h, if_true] at hx
        exact List.mem_cons_of_mem _ (ih hx)
      · simp only [Registry.remove, h, if_false, Registry.keys_cons] at hx
        rcases List.mem_cons.mp hx with h1 | h1
        · exact List.mem_cons.mpr (Or.inl h1)
        · exact List.mem_cons_of_mem _ (ih h1)

theorem Registry.nodup_keys_remove (m : Registry) (g : Nat)
    (h : (Registry.keys m).Nodup) : (Registry.keys (Registry.remove m g)).Nodup := by
  induction m with
  | nil => simp [Registry.remove, Registry.keys]
  | cons p rest ih =>
      obtain ⟨g2, s⟩ := p
      rw [Registry.keys_cons, List.nodup_cons] at h
      by_cases hg : g2 = g
      · simpa [Registry.remove, hg] using ih h.2
      · simp only [Registry.remove, hg, if_false, Registry.keys_cons]
        exact List.nodup_cons.mpr
          ⟨fun hmem => h.1 (Registry.keys_remove_subset rest g g2 hmem), ih h.2⟩

theorem Registry.find_eq_none_of_not_mem (m : Registry) (g : Nat)
    (h : g ∉ Registry.keys m) : Registry.find m g = none := by
  induction m with
  | nil => rfl
  | cons p rest ih =>
      obtain ⟨g2, s⟩ := p
      rw [Registry.keys_cons] at h
      simp only [List.mem_cons, not_or] at h
      have hg : ¬g2 = g := fun hh => h.1 hh.symm
      simp [Registry.find, hg, ih h.2]

theorem Registry.not_mem_of_find_eq_none (m : Registry) (g : Nat)
    (h : Registry.find m g = none) : g ∉ Registry.keys m := by
  induction m with
  | nil => simp [Registry.keys]
  | cons p rest ih =>
      obtain ⟨g2, s⟩ := p
      by_cases hg : g2 = g
      · simp [Registry.find, hg] at h
      · simp only [Registry.find, hg, if_false] at h
        rw [Registry.keys_cons]
        simp only [List.mem_cons, not_or]
        exact ⟨fun hh => hg hh.symm, ih h⟩

/-- C2: the registry holds at most one Session per guild id — both
`getOrCreate` and `createReplacing` preserve distinctness of the
registered guild keys; `getOrCreate` for a guild id is stable (a second
call yields exactly the Session instance the first call returned); and
creating a replacement Session for a guild that already has one first
terminates the existing Session. -/
theorem c2_one_session_per_guild (m : Registry) (g : Nat) :
    ((Registry.keys m).Nodup →
        (Registry.keys (Registry.getOrCreate m g).2).Nodup ∧
          (Registry.keys (Registry.createReplacing m g).1).Nodup) ∧
      (Registry.getOrCreate (Registry.getOrCreate m g).2 g).1
        = (Registry.getOrCreate m g).1 ∧
      (∀ old, Registry.find m g = some old →
        (Registry.createReplacing m g).2 = some (old.terminate).1 ∧
          ((old.terminate).1).state = .Terminated) := by
  refine ⟨?_, ?_, ?_⟩
  · intro h
    constructor
    · cases hf : Registry.find m g with
      | some s => simpa [Registry.getOrCreate, hf] using h
      | none =>
          simp only [Registry.getOrCreate, hf]
          exact List.nodup_cons.mpr ⟨Registry.not_mem_of_find_eq_none m g hf, h⟩
    · cases hf : Registry.find m g with
      | some s =>
          simp only [Registry.createReplacing, hf]
          exact List.nodup_cons.mpr
            ⟨Registry.not_mem_keys_remove m g, Registry.nodup_keys_remove m g h⟩
      | none =>
          simp only [Registry.createReplacing, hf]
          exact List.nodup_cons.mpr ⟨Registry.not_mem_of_find_eq_none m g hf, h⟩
  · cases hf : Registry.find m g with
    | some s => simp [Registry.getOrCreate, hf]
    | none => simp [Registry.getOrCreate, hf, Registry.find]
  · intro old hf
    exact ⟨by simp [Registry.createReplacing, hf], Session.terminate_state old⟩

/-- C2 witness: instantiation at a concrete registry holding one playing
session for guild 7. -/
theorem c2_witness :
    (Registry.keys (Registry.getOrCreate [(7, sess .Playing)] 7).2).Nodup ∧
      (Registry.getOrCreate (Registry.getOrCreate [(7, sess .Playing)] 7).2 7).1
        = (Registry.getOrCreate [(7, sess .Playing)] 7).1 ∧
      (Registry.createReplacing [(7, sess .Playing)] 7).2
        = some ((sess .Playing).terminate).1 :=
  ⟨((c2_one_session_per_guild [(7, sess .Playing)] 7).1 (by decide)).1,
   (c2_one_session_per_guild [(7, sess .Playing)] 7).2.1,
   ((c2_one_session_per_guild [(7, sess .Playing)] 7).2.2 (sess .Playing)
      (by decide)).1⟩

/-- Modelled from the spec: `shutdown_all()` — terminates every
registered Session and returns only once each has completed its
teardown; the registry afterwards holds the terminated Sessions
(spec 4.5, 8). -/
def Registry.shutdownAll (m : Registry) : Registry :=
  m.map (fun p => (p.1, (p.2.terminate).1))

/-- Modelled from the spec: `active_session_count()` counts the Sessions
currently in `Playing` state (spec 4.5). -/
def Registry.activeSessionCount (m : Registry) : Nat :=
  (m.filter (fun p => p.2.state == .Playing)).length

/-- C6: after `shutdownAll` every Session registered in the Session
Manager is in state `Terminated`, and `activeSessionCount` of the
resulting registry is 0. -/
theorem c6_shutdown_all_terminates (m : Registry) :
    (∀ p ∈ Registry.shutdownAll m, (p.2).state = .Terminated) ∧
      Registry.activeSessionCount (Registry.shutdownAll m) = 0 := by
  constructor
  · intro p hp
    simp only [Registry.shutdownAll, List.mem_map] at hp
    obtain ⟨q, _, rfl⟩ := hp
    exact Session.terminate_state q.2
  · induction m with
    | nil => rfl
    | cons p rest ih =>
        have hterm := Session.terminate_state p.2
        simp only [Registry.shutdownAll, List.map_cons,
          Registry.activeSessionCount, List.filter_cons] at ih ⊢
        rw [hterm]
        simpa using ih

/-- C6 witness: instantiation at a registry with a playing and a paused
session; the first entry of the shut-down registry is terminated and the
active count is 0. -/
theorem c6_witness :
    Registry.activeSessionCount
        (Registry.shutdownAll [(1, sess .Playing), (2, sess .Paused)]) = 0 ∧
      ((7, ((sess .Playing).terminate).1) ∈
          Registry.shutdownAll [(7, sess .Playing)] →
        (((sess .Playing).terminate).1).state = .Terminated) :=
  ⟨(c6_shutdown_all_terminates [(1, sess .Playing), (2, sess .Paused)]).2,
   fun hmem =>
     (c6_shutdown_all_terminates [(7, sess .Playing)]).1
       (7, ((sess .Playing).terminate).1) hmem⟩

/-- Modelled from the spec: a frame handed to the transport — either a
real PCM frame identified by its source sequence number, or a silence
substitution emitted when no audio was available for a tick (spec 3
"Frame", 4.3).  The `audio`/`player` modules are not in the excerpt. -/
inductive Frame
  | real (n : Nat)
  | silence
  deriving DecidableEq, Repr

/-- The frame a relay tick produces from the backend poll result:
a numbered real frame when a chunk arrived in time, silence otherwise
(spec 4.3: "if unavailable in time, substitute a silence Frame"). -/
def toFrame : Option Nat → Frame
  | some n => .real n
  | none => .silence

/-- The source sequence number of a frame, if it is a real frame. -/
def Frame.num : Frame → Option Nat
  | .real n => some n
  | .silence => none

/-- The source sequence numbers of the real frames of a delivered
sequence, in delivery order. -/
def realNums (l : List Frame) : List Nat := l.filterMap Frame.num

/-- Modelled from the spec: the transport sink's answer to `send_frame` —
accepted, or `WouldBlock` when its internal buffer is full (spec 4.2). -/
inductive SinkResp
  | ok
  | wouldBlock
  deriving DecidableEq, Repr

/-- Modelled from the spec: the Audio Relay loop's state — its internal
backlog of buffered frames not yet accepted by the sink, and the frames
delivered to the transport so far, in delivery order (spec 4.3). -/
structure RelayState where
  buffer : List Frame
  sent : List Frame
  deriving DecidableEq, Repr

/-- The relay's initial state: nothing buffered, nothing delivered. -/
def relayInit : RelayState := { buffer := [], sent := [] }

/-- Modelled from the spec: one relay tick (spec 4.3).  The backend poll
result is turned into a frame (silence on a gap) and queued behind the
backlog; if the sink accepts, the oldest queued frame is delivered; if
the sink reports `WouldBlock`, the relay drops the oldest buffered frame
rather than accumulating latency. -/
def RelayState.tick (st : RelayState) (input : Option Nat) (resp : SinkResp) :
    RelayState :=
  match resp, st.buffer ++ [toFrame input] with
  | .ok, front :: rest => { buffer := rest, sent := st.sent ++ [front] }
  | .wouldBlock, _ :: rest => { buffer := rest, sent := st.sent }
  | _, [] => { buffer := [], sent := st.sent }

/-- Running the relay over a list of ticks, each tick pairing the backend
poll result with the sink's response. -/
def RelayState.runWith (st : RelayState) :
    List (Option Nat × SinkResp) → RelayState
  | [] => st
  | (i, r) :: rest => RelayState.runWith (st.tick i r) rest

theorem RelayState.tick_ok_empty (sent : List Frame) (i : Option Nat) :
    RelayState.tick { buffer := [], sent := sent } i .ok
      = { buffer := [], sent := sent ++ [toFrame i] } := rfl

theorem RelayState.runWith_ok (inputs : List (Option Nat)) (sent : List Frame) :
    RelayState.runWith { buffer := [], sent := sent }
        (inputs.map (fun i => (i, SinkResp.ok)))
      = { buffer := [], sent := sent ++ inputs.map toFrame } := by
  induction inputs generalizing sent with
  | nil => simp [RelayState.runWith]
  | cons i rest ih =>
      simp only [List.map_cons, RelayState.runWith, RelayState.tick_ok_empty, ih,
        List.map, List.append_assoc, List.cons_append, List.nil_append]

theorem realNums_map_toFrame (l : List (Option Nat)) :
    realNums (l.map toFrame) = l.filterMap id := by
  induction l with
  | nil => rfl
  | cons i rest ih =>
      cases i <;> simp [realNums, toFrame, Frame.num, List.filterMap_cons] at ih ⊢ <;>
        exact ih

/-- C3: when the sink accepts every frame, the relay delivers exactly one
frame per tick in source order — the delivered sequence is the tick-wise
image of the backend's output, its real frames carry exactly the source
sequence numbers in source order (no duplication, no reordering), gaps
appear as silence frames, and if the source numbers are strictly
increasing then so are the numbers of the delivered real frames. -/
theorem c3_frame_order_preserved (inputs : List (Option Nat)) :
    (RelayState.runWith relayInit
        (inputs.map (fun i => (i, SinkResp.ok)))).sent = inputs.map toFrame ∧
      realNums ((RelayState.runWith relayInit
        (inputs.map (fun i => (i, SinkResp.ok)))).sent) = inputs.filterMap id ∧
      (List.Pairwise (· < ·) (inputs.filterMap id) →
        List.Pairwise (· < ·) (realNums ((RelayState.runWith relayInit
          (inputs.map (fun i => (i, SinkResp.ok)))).sent))) := by
  have hsent : (RelayState.runWith relayInit
      (inputs.map (fun i => (i, SinkResp.ok)))).sent = inputs.map toFrame := by
    rw [show relayInit = { buffer := [], sent := [] } from rfl,
      RelayState.runWith_ok inputs []]
    simp
  refine ⟨hsent, ?_, ?_⟩
  · rw [hsent]
    exact realNums_map_toFrame inputs
  · intro hp
    rw [hsent, realNums_map_toFrame inputs]
    exact hp

/-- C3 witness: frames 1, 2 with one gap are delivered as real 1,
silence, real 2; the real numbers strictly increase. -/
theorem c3_witness :
    (RelayState.runWith relayInit
        ([some 1, none, some 2].map (fun i => (i, SinkResp.ok)))).sent
      = [.real 1, .silence, .real 2] ∧
      List.Pairwise (· < ·) (realNums ((RelayState.runWith relayInit
        ([some 1, none, some 2].map (fun i => (i, SinkResp.ok)))).sent)) :=
  ⟨(c3_frame_order_preserved [some 1, none, some 2]).1,
   (c3_frame_order_preserved [some 1, none, some 2]).2.2 (by decide)⟩

theorem RelayState.tick_wouldBlock (st : RelayState) (i : Option Nat) :
    (st.tick i .wouldBlock).buffer = (st.buffer ++ [toFrame i]).drop 1 ∧
      (st.tick i .wouldBlock).buffer.length = st.buffer.length := by
  obtain ⟨buf, sent⟩ := st
  cases buf <;> simp [RelayState.tick]

/-- C4: under permanent sink saturation (`WouldBlock` on every tick) the
relay's backlog never grows — each tick drops the oldest buffered frame,
so the backlog length is invariant across every tick from every state
(hence bounded in every reachable state), and a relay started from the
initial state keeps an empty backlog forever. -/
theorem c4_bounded_backlog (st : RelayState) (i : Option Nat)
    (inputs : List (Option Nat)) :
    (st.tick i .wouldBlock).buffer = (st.buffer ++ [toFrame i]).drop 1 ∧
      (st.tick i .wouldBlock).buffer.length = st.buffer.length ∧
      (RelayState.runWith st
          (inputs.map (fun j => (j, SinkResp.wouldBlock)))).buffer.length
        = st.buffer.length := by
  refine ⟨(RelayState.tick_wouldBlock st i).1, (RelayState.tick_wouldBlock st i).2, ?_⟩
  induction inputs generalizing st with
  | nil => rfl
  | cons j rest ih =>
      simp only [List.map_cons, RelayState.runWith]
      rw [ih (st.tick j .wouldBlock), (RelayState.tick_wouldBlock st j).2]

/-- The startup environment `main` reads (src/main.rs lines 46-58): the
outcome of `dotenv()` and the two required variables read with
`env::var(..).expect(..)`.  The build without the optional `stats`
feature is modelled, so `KV_URL` does not appear. -/
structure StartEnv where
  dotenvFound : Bool
  discordToken : Option String
  databaseUrl : Option String
  deriving DecidableEq, Repr

/-- The observable steps of `main` up to and including starting the bot,
embedded from src/main.rs. -/
inductive MainStep
  | loggerInit
  | dotenvLoaded
  | dotenvMissingWarn
  | panicMissing (msg : String)
  | clientBuilt
  | coordinatorSpawned
  | botStarted
  deriving DecidableEq, Repr

/-- The panic message of `env::var("DISCORD_TOKEN").expect(..)`
(src/main.rs line 57). -/
def tokenExpectMsg : String := "a token in the environment"

/-- The panic message of `env::var("DATABASE_URL").expect(..)`
(src/main.rs line 58). -/
def dbUrlExpectMsg : String := "a database URL in the environment"

/-- The straight-line prefix of `main` before the environment-variable
reads: logger initialisation, then the `dotenv()` result which is only
logged — a missing .env file produces a warning and nothing else
(src/main.rs lines 41-55). -/
def mainPrelude (e : StartEnv) : List MainStep :=
  [MainStep.loggerInit,
   if e.dotenvFound then MainStep.dotenvLoaded else MainStep.dotenvMissingWarn]

/-- The trace of `main` from logger initialisation to bot start,
embedded from src/main.rs lines 41-153: after the prelude, the
`DISCORD_TOKEN` read panics if the variable is absent, then the
`DATABASE_URL` read panics if absent; only when both are present is the
gateway client built, the background coordinator spawned and the bot
started. -/
def mainTrace (e : StartEnv) : List MainStep :=
  match e.discordToken with
  | none => mainPrelude e ++ [MainStep.panicMissing tokenExpectMsg]
  | some _ =>
      match e.databaseUrl with
      | none => mainPrelude e ++ [MainStep.panicMissing dbUrlExpectMsg]
      | some _ =>
          mainPrelude e ++
            [MainStep.clientBuilt, MainStep.coordinatorSpawned, MainStep.botStarted]

/-- C9: if `DISCORD_TOKEN` or `DATABASE_URL` is absent at startup the
process panics before the gateway client is built (the trace ends in a
`panicMissing` step and contains no `clientBuilt` step); when both are
present the client is built and no panic occurs, and this outcome does
not depend on whether a .env file was found — a missing .env only adds a
warning step. -/
theorem c9_env_vars_required (e : StartEnv) :
    ((e.discordToken = none ∨ e.databaseUrl = none) →
        (∃ msg, MainStep.panicMissing msg ∈ mainTrace e) ∧
          MainStep.clientBuilt ∉ mainTrace e) ∧
      (e.discordToken ≠ none → e.databaseUrl ≠ none →
        MainStep.clientBuilt ∈ mainTrace e ∧
          ∀ msg, MainStep.panicMissing msg ∉ mainTrace e) ∧
      (∀ b, (MainStep.clientBuilt ∈ mainTrace { e with dotenvFound := b }
          ↔ MainStep.clientBuilt ∈ mainTrace e) ∧
        (∀ msg, MainStep.panicMissing msg ∈ mainTrace { e with dotenvFound := b }
          ↔ MainStep.panicMissing msg ∈ mainTrace e)) := by
  obtain ⟨dfound, tok, db⟩ := e
  refine ⟨?_, ?_, ?_⟩
  · rintro (h | h)
    · simp only at h
      subst h
      cases dfound <;>
        exact ⟨⟨tokenExpectMsg, by simp [mainTrace, mainPrelude]⟩,
          by simp [mainTrace, mainPrelude]⟩
    · simp only at h
      subst h
      cases tok with
      | none =>
          cases dfound <;>
            exact ⟨⟨tokenExpectMsg, by simp [mainTrace, mainPrelude]⟩,
              by simp [mainTrace, mainPrelude]⟩
      | some t =>
          cases dfound <;>
            exact ⟨⟨dbUrlExpectMsg, by simp [mainTrace, mainPrelude]⟩,
              by simp [mainTrace, mainPrelude]⟩
  · intro htok hdb
    cases tok with
    | none => exact absurd rfl htok
    | some t =>
        cases db with
        | none => exact absurd rfl hdb
        | some d =>
            cases dfound <;>
              exact ⟨by simp [mainTrace, mainPrelude],
                fun msg => by simp [mainTrace, mainPrelude]⟩
  · intro b
    cases tok <;> [skip; cases db] <;> cases dfound <;> cases b <;>
      exact ⟨by simp [mainTrace, mainPrelude], fun msg => by simp [mainTrace, mainPrelude]⟩

/-- A startup environment with a .env file but no `DISCORD_TOKEN`. -/
def envNoToken : StartEnv := ⟨true, none, some "postgres"⟩

/-- A startup environment with both variables set and no .env file. -/
def envBoth : StartEnv := ⟨false, some "tok", some "postgres"⟩

/-- C9 witness: with the token absent the trace panics and never builds
the client; with both variables present (and no .env file) the client is
built. -/
theorem c9_witness :
    (∃ msg, MainStep.panicMissing msg ∈ mainTrace envNoToken) ∧
      MainStep.clientBuilt ∉ mainTrace envNoToken ∧
      MainStep.clientBuilt ∈ mainTrace envBoth :=
  ⟨((c9_env_vars_required envNoToken).1 (Or.inl rfl)).1,
   ((c9_env_vars_required envNoToken).1 (Or.inl rfl)).2,
   ((c9_env_vars_required envBoth).2.1 (by simp [envBoth]) (by simp [envBoth])).1⟩

/-- The events the background coordinator task's `tokio::select!` can
wake on (src/main.rs lines 101-148): the 60-second stats timer, the
interrupt (ctrl-c) signal, and the Unix terminate signal.  The Unix
build, where the terminate-signal branch is enabled, is modelled. -/
inductive CoordEvent
  | statsTick
  | ctrlC
  | termSignal
  deriving DecidableEq, Repr

/-- The externally visible actions the coordinator task performs. -/
inductive CoordAction
  | statsUpdate
  | sessionShutdown
  | shardShutdown
  deriving DecidableEq, Repr

/-- Whether a select event is one of the two shutdown signals. -/
def CoordEvent.isSignal : CoordEvent → Bool
  | .statsTick => false
  | .ctrlC => true
  | .termSignal => true

/-- The background coordinator task embedded from src/main.rs lines
101-150: an endless `loop` over `tokio::select!` that updates stats on
the timer branch, and on either signal branch awaits
`session_manager.shutdown()`, then `shard_manager.shutdown_all()`, then
`break`s out of the loop, ignoring any later events. -/
def coordinatorLoop : List CoordEvent → List CoordAction
  | [] => []
  | .statsTick :: rest => .statsUpdate :: coordinatorLoop rest
  | .ctrlC :: _ => [.sessionShutdown, .shardShutdown]
  | .termSignal :: _ => [.sessionShutdown, .shardShutdown]

/-- How many times an action occurs in an action sequence. -/
def actionCount (a : CoordAction) : List CoordAction → Nat
  | [] => 0
  | b :: rest => actionCount a rest + (if b = a then 1 else 0)

/-- C10: the coordinator handles at most one shutdown — its action
sequence is exactly one stats update per timer tick before the first
signal, followed (when a signal occurs) by the session-manager shutdown
and then the gateway shard shutdown, after which nothing further
happens; in particular both shutdown actions occur at most once and all
events after the first signal are ignored. -/
theorem c10_single_shutdown (evs : List CoordEvent) :
    coordinatorLoop evs =
      (evs.takeWhile (fun e => !e.isSignal)).map (fun _ => CoordAction.statsUpdate)
        ++ (if (evs.dropWhile (fun e => !e.isSignal)).isEmpty then []
            else [CoordAction.sessionShutdown, CoordAction.shardShutdown]) ∧
      actionCount CoordAction.sessionShutdown (coordinatorLoop evs) ≤ 1 ∧
      actionCount CoordAction.shardShutdown (coordinatorLoop evs) ≤ 1 := by
  have h1 : actionCount CoordAction.sessionShutdown
      [CoordAction.sessionShutdown, CoordAction.shardShutdown] ≤ 1 := by decide
  have h2 : actionCount CoordAction.shardShutdown
      [CoordAction.sessionShutdown, CoordAction.shardShutdown] ≤ 1 := by decide
  induction evs with
  | nil => exact ⟨rfl, by decide, by decide⟩
  | cons e rest ih =>
      cases e with
      | statsTick =>
          exact ⟨congrArg (List.cons CoordAction.statsUpdate) ih.1, ih.2.1, ih.2.2⟩
      | ctrlC => exact ⟨rfl, h1, h2⟩
      | termSignal => exact ⟨rfl, h1, h2⟩

end Spoticord
